import Mathlib

/-!
Verification of the email-statistics aggregation engine
(`src/analyzers/email_analyzer.py`, class `EmailAnalyzer`).

The Python analyzer is shallowly embedded as follows.

* A naive `datetime` is modelled as an `Int` counting seconds since the
  epoch; `hour`, `weekday`, comparison and subtraction are derived from it
  exactly as for naive datetimes (86400-second days, no timezones).  A
  possibly missing timestamp is `Option Int` (`none` = Python `None`).
* Python `str` fields that may be `None` at runtime are `Option String`;
  Python truthiness (`if email.subject:`) is "present and non-empty".
  `f"{x}"` renders `None` as the string `"None"`, as in Python.
* Python `float` arithmetic (`/`, averages, percentages) is modelled
  exactly over `ℚ`.
* A Python `dict` is modelled by a canonical representation that is
  faithful to Python `dict` equality (which ignores key order): a fixed-key
  dict becomes a structure, and the defaultdict histograms (whose present
  keys always carry positive counts, absent keys reading as zero) become
  count vectors over their finite key universe.
* A `collections.Counter` built by successive updates keeps its keys in
  first-occurrence order; `most_common(n)` is a stable descending sort by
  count followed by `take n`.  Both are modelled directly.
* Regex operations are modelled by executable functions that follow the
  leftmost, greedy backtracking semantics of the concrete patterns used in
  the source, over ASCII text (the inputs the analyzer meets are ASCII;
  character classes in the source patterns are ASCII-literal).
* An uncaught Python exception is modelled by `Option`: `analyzeEmails`
  returns `none` when the original `analyze_emails` raises.  The only
  sub-statistic that can raise on a list of records of the declared shape
  is `_analyze_response_times`, whose `sorted(..., key=lambda x: x.date)`
  compares `None` with a datetime (a `TypeError`) whenever a thread group
  with at least two members contains a record without a timestamp.
-/

namespace EmailBox

/-- ASCII model of the regex class `\s` (Python whitespace). -/
def isPySpace (c : Char) : Bool :=
  c == ' ' || c == '\t' || c == '\n' || c == '\r' || c == '\x0B' || c == '\x0C'

/-- ASCII model of the regex class `\w`. -/
def isWordChar (c : Char) : Bool :=
  c.isAlphanum || c == '_'

/-- ASCII model of Python `str.lower`. -/
def pyLower (s : String) : String :=
  ⟨s.data.map Char.toLower⟩

/-- Python f-string rendering of a possibly-`None` string (`None` prints as `"None"`). -/
def pyStr : Option String → String
  | none => "None"
  | some s => s

/-- Python truthiness of a possibly-`None` string field. -/
def strTruthy : Option String → Bool
  | none => false
  | some s => !s.isEmpty

/-- Splits a character list into its maximal runs of `\w` characters,
accumulating the current run in reverse.  This is `re.findall(r"\b\w+\b", s)`. -/
def wordRunsAux : List Char → List Char → List (List Char)
  | [], acc => if acc.isEmpty then [] else [acc.reverse]
  | c :: cs, acc =>
    if isWordChar c then wordRunsAux cs (c :: acc)
    else if acc.isEmpty then wordRunsAux cs []
    else acc.reverse :: wordRunsAux cs []

/-- Model of `re.findall(r"\b\w+\b", s)`: the maximal word-character runs. -/
def wordRuns (cs : List Char) : List String :=
  (wordRunsAux cs []).map (fun r => ⟨r⟩)

/-- Model of `re.findall(r"\b[a-zA-Z]{3,}\b", s)`: a maximal word-character run
matches exactly when it is all-alphabetic of length at least 3 (a letter run
bordered by a digit or underscore fails the word-boundary assertions). -/
def alphaTokens (cs : List Char) : List String :=
  ((wordRunsAux cs []).filter (fun r => r.all Char.isAlpha && decide (3 ≤ r.length))).map
    (fun r => ⟨r⟩)

/-- Keys of a Python dict / `Counter` in insertion order: first occurrences,
later duplicates dropped. -/
def firstDedup {α : Type} [DecidableEq α] : List α → List α
  | [] => []
  | a :: l => a :: (firstDedup l).filter (fun b => decide (b ≠ a))

/-- Number of occurrences of a key in the stream of counted keys. -/
def countKey (ks : List String) (k : String) : Nat :=
  ks.countP (fun x => decide (x = k))

/-- The `(key, count)` items of `collections.Counter(ks)`-style counting, in
first-insertion key order (Python dict iteration order). -/
def counterItems (ks : List String) : List (String × Nat) :=
  (firstDedup ks).map (fun k => (k, countKey ks k))

/-- Stable insertion (from the right) for a descending sort by a `Nat` key:
`x` passes every element with a strictly larger key and stops before the
first element whose key is `≤` its own. -/
def insertDesc {α : Type} (f : α → Nat) (x : α) : List α → List α
  | [] => [x]
  | y :: l => if f x < f y then y :: insertDesc f x l else x :: y :: l

/-- Stable descending sort by a `Nat` key: Python `sorted(..., key, reverse=True)`
(equal keys keep their original relative order). -/
def sortDesc {α : Type} (f : α → Nat) (l : List α) : List α :=
  l.foldr (insertDesc f) []

/-- Model of `Counter.most_common(n)`: stable descending sort of the counter
items by count, then the first `n`. -/
def mostCommon (n : Nat) (ks : List String) : List (String × Nat) :=
  (sortDesc Prod.snd (counterItems ks)).take n

/-- Stable insertion (from the right) for an ascending `Int` sort. -/
def insertAsc (x : Int) : List Int → List Int
  | [] => [x]
  | y :: l => if y ≤ x then y :: insertAsc x l else x :: y :: l

/-- Ascending sort of integers, as performed by Python `sorted` on timestamps. -/
def sortInts (l : List Int) : List Int :=
  l.foldr insertAsc []

/-- Fold of a binary operation over a list, `none` on the empty list: the
semantics of Python `min` / `max` over a possibly-empty collection (the
callers below only read it under a non-emptiness guard). -/
def foldOpt {α : Type} (f : α → α → α) : List α → Option α
  | [] => none
  | a :: l => some (match foldOpt f l with | none => a | some m => f a m)

/-! ### Naive datetimes -/

/-- The `hour` component of a naive datetime given as epoch seconds. -/
def pyHour (t : Int) : Int :=
  Int.fmod (Int.fdiv t 3600) 24

/-- The `weekday()` (Monday = 0) of a naive datetime given as epoch seconds;
day 0 (1970-01-01) was a Thursday. -/
def pyWeekday (t : Int) : Int :=
  Int.fmod (Int.fdiv t 86400 + 3) 7

/-- Civil date `(year, month, day)` from a day count since the epoch
(standard proleptic-Gregorian conversion, with floor division). -/
def civilFromDays (z0 : Int) : Int × Int × Int :=
  let z := z0 + 719468
  let era := Int.fdiv z 146097
  let doe := z - era * 146097
  let yoe := Int.fdiv (doe - Int.fdiv doe 1460 + Int.fdiv doe 36524 - Int.fdiv doe 146096) 365
  let y := yoe + era * 400
  let doy := doe - (365 * yoe + Int.fdiv yoe 4 - Int.fdiv yoe 100)
  let mp := Int.fdiv (5 * doy + 2) 153
  let d := doy - Int.fdiv (153 * mp + 2) 5 + 1
  let m := mp + (if mp < 10 then 3 else -9)
  (y + (if m ≤ 2 then 1 else 0), m, d)

/-- Zero-pads a non-negative number to a width, as `strftime` field padding. -/
def padNum (w : Nat) (n : Int) : String :=
  let s := toString n
  ⟨List.replicate (w - s.length) '0'⟩ ++ s

/-- Model of `datetime.strftime('%Y-%m-%d')` for a timestamp in epoch seconds. -/
def formatDate (t : Int) : String :=
  let c := civilFromDays (Int.fdiv t 86400)
  padNum 4 c.1 ++ "-" ++ padNum 2 c.2.1 ++ "-" ++ padNum 2 c.2.2

/-! ### Records and the statistics bundle -/

/-- The fields of `EmailMessage` that the analyzer reads.  `subject`,
`sender` and `body` may be `None` at runtime, `date` may be missing, and
`size` is the byte size. -/
structure EmailMessage where
  subject : Option String
  sender : Option String
  date : Option Int
  body : Option String
  attachments : List String
  size : Int
deriving DecidableEq

/-- The four fixed time-of-day bands (`activity_by_time` as a canonical
histogram; a missing key of the Python dict reads as count 0). -/
structure TimeActivity where
  morning : Nat
  afternoon : Nat
  evening : Nat
  night : Nat
deriving DecidableEq

/-- The four fixed byte-size bands of `email_size_distribution`. -/
structure SizeRanges where
  small : Nat
  medium : Nat
  large : Nat
  veryLarge : Nat
deriving DecidableEq

/-- The value of the `email_size_distribution` key. -/
structure SizeDistribution where
  size_ranges : SizeRanges
  avg_size : ℚ
  max_size : Int
  min_size : Int
deriving DecidableEq

/-- The value of the `subject_analysis` key. -/
structure SubjectAnalysis where
  avg_length : ℚ
  max_length : Nat
  min_length : Nat
  common_words : List (String × Nat)
  total_words : Nat
deriving DecidableEq

/-- The value of the `attachment_analysis` key. -/
structure AttachmentAnalysis where
  emails_with_attachments : Nat
  total_attachments : Nat
  attachment_types : List (String × Nat)
  attachment_rate : ℚ
deriving DecidableEq

/-- One entry of `thread_stats`. -/
structure ThreadStat where
  subject : String
  count : Nat
  date_range : String
deriving DecidableEq

/-- The value of the `thread_analysis` key. -/
structure ThreadAnalysis where
  total_threads : Nat
  largest_thread : Option ThreadStat
  avg_thread_size : ℚ
  top_threads : List ThreadStat
deriving DecidableEq

/-- The value of the `domain_analysis` key. -/
structure DomainAnalysis where
  top_domains : List (String × Nat)
  total_domains : Nat
  domain_diversity : ℚ
deriving DecidableEq

/-- The value of the `sentiment_analysis` key. -/
structure SentimentAnalysis where
  positive : Nat
  negative : Nat
  neutral : Nat
  positive_percentage : ℚ
  negative_percentage : ℚ
  neutral_percentage : ℚ
deriving DecidableEq

/-- The value of the `keyword_analysis` key. -/
structure KeywordAnalysis where
  top_keywords : List (String × Nat)
  total_unique_words : Nat
  most_common_word : Option (String × Nat)
deriving DecidableEq

/-- The value of the `response_time_analysis` key. -/
structure ResponseTimeAnalysis where
  avg_response_time_hours : ℚ
  min_response_time_hours : ℚ
  max_response_time_hours : ℚ
  response_time_samples : Nat
deriving DecidableEq

/-- The full statistics bundle returned by `analyze_emails`.  A sub-statistic
whose Python value can be the bare empty dict `{}` is an `Option`, with
`none` standing for `{}`. -/
structure AnalysisResults where
  total_emails : Nat
  date_range : String
  total_size_mb : ℚ
  top_senders : List (String × Nat)
  activity_by_time : TimeActivity
  activity_by_day : List Nat
  activity_by_hour : List Nat
  subject_analysis : Option SubjectAnalysis
  attachment_analysis : Option AttachmentAnalysis
  email_size_distribution : Option SizeDistribution
  thread_analysis : Option ThreadAnalysis
  domain_analysis : Option DomainAnalysis
  sentiment_analysis : Option SentimentAnalysis
  keyword_analysis : Option KeywordAnalysis
  response_time_analysis : Option ResponseTimeAnalysis
deriving DecidableEq

/-! ### Regex-based sender address and domain extraction -/

/-- The class `[a-zA-Z0-9._%+-]` (local part of an address). -/
def isLocalChar (c : Char) : Bool :=
  c.isAlphanum || c == '.' || c == '_' || c == '%' || c == '+' || c == '-'

/-- The class `[a-zA-Z0-9.-]` (domain part of an address). -/
def isDomChar (c : Char) : Bool :=
  c.isAlphanum || c == '.' || c == '-'

/-- Given the maximal `[a-zA-Z0-9.-]` run `R` after an `@`, the greedy
backtracking of `[a-zA-Z0-9.-]+\.[a-zA-Z]{2,}` keeps the longest non-empty
prefix of `R` that is followed (inside `R`) by a dot and at least two
letters; returns the resulting match length within `R`. -/
def domSplit (R : List Char) : Option Nat :=
  ((List.range R.length).reverse.find? (fun k =>
      decide (1 ≤ k) && (R.getD k ' ' == '.') &&
      decide (2 ≤ ((R.drop (k + 1)).takeWhile Char.isAlpha).length))).map
    (fun k => k + 1 + ((R.drop (k + 1)).takeWhile Char.isAlpha).length)

/-- Match attempt of `[a-zA-Z0-9._%+-]+@[a-zA-Z0-9.-]+\.[a-zA-Z]{2,}` anchored
at the head of `cs`: the greedy local-part run must be non-empty and be
followed immediately by `@`, then the domain as in `domSplit`. -/
def attemptEmail (cs : List Char) : Option (List Char) :=
  let l := cs.takeWhile isLocalChar
  if l.isEmpty then none
  else
    match cs.drop l.length with
    | '@' :: rest =>
      let R := rest.takeWhile isDomChar
      (domSplit R).map (fun stop => l ++ '@' :: R.take stop)
    | _ => none

/-- Model of `re.search` for the address pattern: try each start position
left to right, return the first successful match. -/
def searchEmail : List Char → Option String
  | [] => none
  | c :: rest =>
    match attemptEmail (c :: rest) with
    | some m => some ⟨m⟩
    | none => searchEmail rest

/-- Match attempt of `@([a-zA-Z0-9.-]+\.[a-zA-Z]{2,})` anchored at the head:
a literal `@`, then the captured domain as in `domSplit`. -/
def attemptDomain : List Char → Option (List Char)
  | '@' :: rest =>
    let R := rest.takeWhile isDomChar
    (domSplit R).map (fun stop => R.take stop)
  | _ => none

/-- Model of `re.search` for the domain pattern, returning the first capture
group of the leftmost match. -/
def searchDomain : List Char → Option String
  | [] => none
  | c :: rest =>
    match attemptDomain (c :: rest) with
    | some m => some ⟨m⟩
    | none => searchDomain rest

/-! ### Thread keys -/

/-- Case-insensitive match of a fixed lowercase tag against the head of `cs`,
returning the remainder on success. -/
def stripTagCI : List Char → List Char → Option (List Char)
  | [], cs => some cs
  | _ :: _, [] => none
  | p :: ps, c :: cs => if c.toLower == p then stripTagCI ps cs else none

/-- One alternative of `^(Re|Fwd|FW|RE|FW):\s*` (case-insensitive): the tag,
a colon, then all following whitespace is consumed greedily. -/
def stripTagColon (tag : List Char) (cs : List Char) : Option (List Char) :=
  match stripTagCI tag cs with
  | some (':' :: rest) => some (rest.dropWhile isPySpace)
  | _ => none

/-- Model of `re.sub(r"^(Re|Fwd|FW|RE|FW):\s*", "", subject, flags=IGNORECASE)`:
the anchored pattern is removed at most once, the alternatives being tried
in order (case-insensitively, `re` / `fwd` / `fw` cover all five). -/
def stripReFwd (cs : List Char) : List Char :=
  match stripTagColon ['r', 'e'] cs with
  | some r => r
  | none =>
    match stripTagColon ['f', 'w', 'd'] cs with
    | some r => r
    | none =>
      match stripTagColon ['f', 'w'] cs with
      | some r => r
      | none => cs

/-- The thread grouping key of a subject: reply/forward marker stripped, then
lowercased (`clean_subject.lower()`). -/
def cleanKey (s : String) : String :=
  ⟨(stripReFwd s.data).map Char.toLower⟩

/-- The grouping key contributed by a record to `thread_groups`: present
exactly when the subject is truthy. -/
def subjectKey (e : EmailMessage) : Option String :=
  match e.subject with
  | none => none
  | some s => if s.isEmpty then none else some (cleanKey s)

/-- The keys of `thread_groups` in Python dict insertion order (first
occurrence of each key in the input). -/
def threadKeys (es : List EmailMessage) : List String :=
  firstDedup (es.filterMap subjectKey)

/-- The member list of one thread group, in input order. -/
def threadGroup (es : List EmailMessage) (k : String) : List EmailMessage :=
  es.filter (fun e => decide (subjectKey e = some k))

/-! ### The fourteen sub-statistics -/

/-- `_get_date_range`. -/
def dateRange (es : List EmailMessage) : String :=
  if es.isEmpty then "No emails"
  else
    let dates := es.filterMap (·.date)
    if dates.isEmpty then "No valid dates"
    else formatDate ((foldOpt min dates).getD 0) ++ " to " ++ formatDate ((foldOpt max dates).getD 0)

/-- `_calculate_total_size`: total bytes over 1024·1024. -/
def calculateTotalSize (es : List EmailMessage) : ℚ :=
  (((es.map (·.size)).sum : Int) : ℚ) / (1024 * 1024)

/-- The counting key of `_analyze_senders` for one record: the extracted
address if the pattern matches, else the raw sender string; absent when the
sender field is not truthy. -/
def senderKey (e : EmailMessage) : Option String :=
  match e.sender with
  | none => none
  | some s => if s.isEmpty then none else some ((searchEmail s.data).getD s)

/-- `_analyze_senders`: the 20 most frequent sender keys. -/
def analyzeSenders (es : List EmailMessage) : List (String × Nat) :=
  mostCommon 20 (es.filterMap senderKey)

/-- One step of the time-of-day bucketing over the hour of one timestamp. -/
def bumpTime (a : TimeActivity) (h : Int) : TimeActivity :=
  if 6 ≤ h ∧ h < 12 then { a with morning := a.morning + 1 }
  else if 12 ≤ h ∧ h < 17 then { a with afternoon := a.afternoon + 1 }
  else if 17 ≤ h ∧ h < 22 then { a with evening := a.evening + 1 }
  else { a with night := a.night + 1 }

/-- `_analyze_time_activity`: records with a timestamp, bucketed by hour. -/
def analyzeTimeActivity (es : List EmailMessage) : TimeActivity :=
  (es.filterMap (fun e => e.date.map pyHour)).foldl bumpTime ⟨0, 0, 0, 0⟩

/-- `_analyze_daily_activity` as the canonical count vector indexed by
`weekday()` (0 = Monday … 6 = Sunday, the indices of `day_names`). -/
def analyzeDailyActivity (es : List EmailMessage) : List Nat :=
  (List.range 7).map (fun i =>
    es.countP (fun e => match e.date with
      | some d => decide (pyWeekday d = (i : Int))
      | none => false))

/-- `_analyze_hourly_activity` as the canonical count vector indexed by hour. -/
def analyzeHourlyActivity (es : List EmailMessage) : List Nat :=
  (List.range 24).map (fun h =>
    es.countP (fun e => match e.date with
      | some d => decide (pyHour d = (h : Int))
      | none => false))

/-- The subject lengths entering `_analyze_subjects` (truthy subjects only). -/
def subjectLengths (es : List EmailMessage) : List Nat :=
  es.filterMap (fun e => match e.subject with
    | none => none
    | some s => if s.isEmpty then none else some s.length)

/-- The word tokens entering `_analyze_subjects`, across records in order. -/
def subjectWords (es : List EmailMessage) : List String :=
  es.flatMap (fun e => match e.subject with
    | none => []
    | some s => if s.isEmpty then [] else wordRuns (pyLower s).data)

/-- `_analyze_subjects`. -/
def analyzeSubjects (es : List EmailMessage) : SubjectAnalysis :=
  let lens := subjectLengths es
  let ws := subjectWords es
  { avg_length := if lens.isEmpty then 0 else ((lens.sum : Nat) : ℚ) / (lens.length : ℚ)
    max_length := (foldOpt max lens).getD 0
    min_length := (foldOpt min lens).getD 0
    common_words := mostCommon 20 ws
    total_words := ws.length }

/-- The lowercased extension of one attachment filename: the substring after
the last dot when a dot is present, otherwise `"no_extension"`. -/
def extOf (name : String) : String :=
  if name.data.contains '.' then ⟨((name.data.reverse.takeWhile (fun c => !(c == '.'))).reverse).map Char.toLower⟩
  else "no_extension"

/-- The extension keys counted by `_analyze_attachments`, across records. -/
def attachmentExts (es : List EmailMessage) : List String :=
  es.flatMap (fun e => e.attachments.map extOf)

/-- `_analyze_attachments`. -/
def analyzeAttachments (es : List EmailMessage) : AttachmentAnalysis :=
  let withAtt := es.countP (fun e => !e.attachments.isEmpty)
  { emails_with_attachments := withAtt
    total_attachments := (es.map (fun e => e.attachments.length)).sum
    attachment_types := mostCommon 10 (attachmentExts es)
    attachment_rate := if es.isEmpty then 0 else ((withAtt : ℚ) / (es.length : ℚ)) * 100 }

/-- One step of the size bucketing (the `if`-chain of the source). -/
def bumpSize (r : SizeRanges) (s : Int) : SizeRanges :=
  if s < 1024 then { r with small := r.small + 1 }
  else if s < 10 * 1024 then { r with medium := r.medium + 1 }
  else if s < 100 * 1024 then { r with large := r.large + 1 }
  else { r with veryLarge := r.veryLarge + 1 }

/-- `_analyze_size_distribution`; `none` is the bare `{}` returned on an
empty size list. -/
def analyzeSizeDistribution (es : List EmailMessage) : Option SizeDistribution :=
  let sizes := es.map (·.size)
  if sizes.isEmpty then none
  else some
    { size_ranges := sizes.foldl bumpSize ⟨0, 0, 0, 0⟩
      avg_size := ((sizes.sum : Int) : ℚ) / (sizes.length : ℚ)
      max_size := (foldOpt max sizes).getD 0
      min_size := (foldOpt min sizes).getD 0 }

/-- The `thread_stats` entries (only groups with at least two members), in
group-key insertion order, before sorting. -/
def threadStats (es : List EmailMessage) : List ThreadStat :=
  (threadKeys es).filterMap (fun k =>
    let g := threadGroup es k
    if 2 ≤ g.length then some ⟨k, g.length, dateRange g⟩ else none)

/-- `_analyze_threads`. -/
def analyzeThreads (es : List EmailMessage) : ThreadAnalysis :=
  let sorted := sortDesc (fun t => t.count) (threadStats es)
  { total_threads := (sorted.filter (fun t => decide (1 < t.count))).length
    largest_thread := sorted.head?
    avg_thread_size :=
      if sorted.isEmpty then 0
      else (((sorted.map (fun t => t.count)).sum : Nat) : ℚ) / (sorted.length : ℚ)
    top_threads := sorted.take 10 }

/-- The domain keys counted by `_analyze_domains` (no raw-string fallback). -/
def domainKeys (es : List EmailMessage) : List String :=
  es.filterMap (fun e => match e.sender with
    | none => none
    | some s => if s.isEmpty then none else searchDomain s.data)

/-- `_analyze_domains`. -/
def analyzeDomains (es : List EmailMessage) : DomainAnalysis :=
  { top_domains := mostCommon 20 (domainKeys es)
    total_domains := (counterItems (domainKeys es)).length
    domain_diversity :=
      if es.isEmpty then 0 else ((counterItems (domainKeys es)).length : ℚ) / (es.length : ℚ) }

/-- The positive sentiment vocabulary of the source. -/
def positiveWords : List String :=
  ["good", "great", "excellent", "amazing", "wonderful", "fantastic", "awesome",
   "perfect", "love", "like", "happy", "pleased", "satisfied", "thank", "thanks",
   "appreciate"]

/-- The negative sentiment vocabulary of the source. -/
def negativeWords : List String :=
  ["bad", "terrible", "awful", "horrible", "disappointed", "angry", "frustrated",
   "hate", "dislike", "upset", "sad", "sorry", "apologize", "problem", "issue",
   "error"]

/-- The distinct word tokens of `f"{subject} {body}".lower()` for one record
(Python builds a `set`). -/
def sentWords (e : EmailMessage) : List String :=
  firstDedup (wordRuns (pyLower (pyStr e.subject ++ " " ++ pyStr e.body)).data)

/-- The three-way sentiment classification of one record. -/
inductive Mood
  | positive
  | negative
  | neutral
deriving DecidableEq

/-- Classifies one record by comparing the distinct-word intersections with
the two vocabularies. -/
def mood (e : EmailMessage) : Mood :=
  let ws := sentWords e
  let p := ws.countP (fun w => decide (w ∈ positiveWords))
  let n := ws.countP (fun w => decide (w ∈ negativeWords))
  if p > n then .positive else if n > p then .negative else .neutral

/-- `_analyze_sentiment`. -/
def analyzeSentiment (es : List EmailMessage) : SentimentAnalysis :=
  let p := es.countP (fun e => decide (mood e = .positive))
  let n := es.countP (fun e => decide (mood e = .negative))
  let u := es.countP (fun e => decide (mood e = .neutral))
  { positive := p
    negative := n
    neutral := u
    positive_percentage := if 0 < es.length then ((p : ℚ) / (es.length : ℚ)) * 100 else 0
    negative_percentage := if 0 < es.length then ((n : ℚ) / (es.length : ℚ)) * 100 else 0
    neutral_percentage := if 0 < es.length then ((u : ℚ) / (es.length : ℚ)) * 100 else 0 }

/-- The stop-word list of the source (the duplicate entry is harmless for
membership). -/
def stopWords : List String :=
  ["the", "a", "an", "and", "or", "but", "in", "on", "at", "to", "for", "of",
   "with", "by", "is", "are", "was", "were", "be", "been", "have", "has", "had",
   "do", "does", "did", "will", "would", "could", "should", "may", "might",
   "can", "this", "that", "these", "those", "i", "you", "he", "she", "it",
   "we", "they", "me", "him", "her", "us", "them", "my", "your", "his", "her",
   "its", "our", "their"]

/-- The keyword tokens of `_analyze_keywords`, across records in order:
length-≥3 alphabetic tokens of `f"{subject} {body}".lower()`, stop words
removed. -/
def keywordList (es : List EmailMessage) : List String :=
  es.flatMap (fun e =>
    (alphaTokens (pyLower (pyStr e.subject ++ " " ++ pyStr e.body)).data).filter
      (fun w => decide (w ∉ stopWords)))

/-- `_analyze_keywords`. -/
def analyzeKeywords (es : List EmailMessage) : KeywordAnalysis :=
  { top_keywords := mostCommon 50 (keywordList es)
    total_unique_words := (counterItems (keywordList es)).length
    most_common_word := (mostCommon 1 (keywordList es)).head? }

/-- Whether `_analyze_response_times` raises: some thread group with at least
two members contains a record without a timestamp, so
`sorted(thread_emails, key=lambda x: x.date)` compares `None` with a
datetime. -/
def threadFails (es : List EmailMessage) : Bool :=
  (threadKeys es).any (fun k =>
    let g := threadGroup es k
    decide (2 ≤ g.length) && g.any (fun e => e.date.isNone))

/-- Hour-valued gaps between consecutive entries of an ascending timestamp
list (`(b - a).total_seconds() / 3600`). -/
def diffHours : List Int → List ℚ
  | a :: b :: rest => ((b - a : Int) : ℚ) / 3600 :: diffHours (b :: rest)
  | _ => []

/-- The response-time contributions of one thread group: gaps between the
date-sorted members when the group has at least two (the dates of the
date-sorted member list are exactly the sorted date list). -/
def threadDeltas (es : List EmailMessage) (k : String) : List ℚ :=
  let g := threadGroup es k
  if 2 ≤ g.length then diffHours (sortInts (g.filterMap (·.date))) else []

/-- The pooled response times across all thread groups, in group-key order. -/
def responsePool (es : List EmailMessage) : List ℚ :=
  (threadKeys es).flatMap (threadDeltas es)

/-- `_analyze_response_times`; `none` models the uncaught `TypeError`. -/
def analyzeResponseTimes (es : List EmailMessage) : Option ResponseTimeAnalysis :=
  if threadFails es then none
  else
    let pool := responsePool es
    if pool.isEmpty then some ⟨0, 0, 0, 0⟩
    else some
      { avg_response_time_hours := pool.sum / (pool.length : ℚ)
        min_response_time_hours := (foldOpt min pool).getD 0
        max_response_time_hours := (foldOpt max pool).getD 0
        response_time_samples := pool.length }

/-- `_empty_results`: every histogram key absent, every structured
sub-statistic the bare `{}`. -/
def emptyResults : AnalysisResults :=
  { total_emails := 0
    date_range := "No emails"
    total_size_mb := 0
    top_senders := []
    activity_by_time := ⟨0, 0, 0, 0⟩
    activity_by_day := List.replicate 7 0
    activity_by_hour := List.replicate 24 0
    subject_analysis := none
    attachment_analysis := none
    email_size_distribution := none
    thread_analysis := none
    domain_analysis := none
    sentiment_analysis := none
    keyword_analysis := none
    response_time_analysis := none }

/-- `analyze_emails`: the empty bundle on empty input, otherwise the fourteen
sub-statistics; `none` when the uncaught exception of the response-time
computation aborts the whole call. -/
def analyzeEmails (es : List EmailMessage) : Option AnalysisResults :=
  if es.isEmpty then some emptyResults
  else
    match analyzeResponseTimes es with
    | none => none
    | some rt => some
      { total_emails := es.length
        date_range := dateRange es
        total_size_mb := calculateTotalSize es
        top_senders := analyzeSenders es
        activity_by_time := analyzeTimeActivity es
        activity_by_day := analyzeDailyActivity es
        activity_by_hour := analyzeHourlyActivity es
        subject_analysis := some (analyzeSubjects es)
        attachment_analysis := some (analyzeAttachments es)
        email_size_distribution := analyzeSizeDistribution es
        thread_analysis := some (analyzeThreads es)
        domain_analysis := some (analyzeDomains es)
        sentiment_analysis := some (analyzeSentiment es)
        keyword_analysis := some (analyzeKeywords es)
        response_time_analysis := some rt }

/-! ### Helper lemmas -/

theorem mem_firstDedup {α : Type} [DecidableEq α] (a : α) :
    ∀ l : List α, a ∈ firstDedup l ↔ a ∈ l := by
  intro l
  induction l with
  | nil => simp [firstDedup]
  | cons b l ih =>
    simp only [firstDedup, List.mem_cons, List.mem_filter, ih, decide_eq_true_eq]
    by_cases hab : a = b
    · simp [hab]
    · simp [hab]

theorem nodup_firstDedup {α : Type} [DecidableEq α] : ∀ l : List α, (firstDedup l).Nodup := by
  intro l
  induction l with
  | nil => simp [firstDedup]
  | cons a l ih =>
    simp only [firstDedup, List.nodup_cons]
    refine ⟨fun hmem => ?_, ih.filter _⟩
    have := (List.mem_filter.1 hmem).2
    simp at this

theorem firstDedup_perm {α : Type} [DecidableEq α] {l1 l2 : List α} (h : l1.Perm l2) :
    (firstDedup l1).Perm (firstDedup l2) :=
  (List.perm_ext_iff_of_nodup (nodup_firstDedup _) (nodup_firstDedup _)).2 fun a => by
    rw [mem_firstDedup, mem_firstDedup]; exact h.mem_iff

theorem countKey_perm {ks1 ks2 : List String} (h : ks1.Perm ks2) (k : String) :
    countKey ks1 k = countKey ks2 k :=
  h.countP_eq _

theorem counterItems_perm {ks1 ks2 : List String} (h : ks1.Perm ks2) :
    (counterItems ks1).Perm (counterItems ks2) := by
  unfold counterItems
  have hf : (fun k => (k, countKey ks1 k)) = fun k => (k, countKey ks2 k) :=
    funext fun k => by rw [countKey_perm h]
  rw [hf]
  exact (firstDedup_perm h).map _

theorem insertDesc_perm {α : Type} (f : α → Nat) (x : α) :
    ∀ l : List α, (insertDesc f x l).Perm (x :: l) := by
  intro l
  induction l with
  | nil => exact .refl _
  | cons y l ih =>
    by_cases hc : f x < f y
    · rw [insertDesc, if_pos hc]
      exact (ih.cons y).trans (List.Perm.swap x y l)
    · rw [insertDesc, if_neg hc]

theorem sortDesc_perm {α : Type} (f : α → Nat) : ∀ l : List α, (sortDesc f l).Perm l := by
  intro l
  induction l with
  | nil => exact .refl _
  | cons a l ih => exact (insertDesc_perm f a (sortDesc f l)).trans (ih.cons a)

theorem insertDesc_sorted {α : Type} (f : α → Nat) (x : α) :
    ∀ l : List α, l.Pairwise (fun p q => f q ≤ f p) →
      (insertDesc f x l).Pairwise (fun p q => f q ≤ f p) := by
  intro l
  induction l with
  | nil => simp [insertDesc]
  | cons y l ih =>
    intro h
    obtain ⟨hy, hl⟩ := List.pairwise_cons.1 h
    by_cases hc : f x < f y
    · rw [insertDesc, if_pos hc]
      refine List.pairwise_cons.2 ⟨fun b hb => ?_, ih hl⟩
      rcases List.mem_cons.1 ((insertDesc_perm f x l).mem_iff.1 hb) with hb | hb
      · exact hb ▸ le_of_lt hc
      · exact hy b hb
    · rw [insertDesc, if_neg hc]
      refine List.pairwise_cons.2 ⟨fun b hb => ?_, h⟩
      rcases List.mem_cons.1 hb with hb | hb
      · exact hb ▸ le_of_not_lt hc
      · exact le_trans (hy b hb) (le_of_not_lt hc)

theorem sortDesc_sorted {α : Type} (f : α → Nat) :
    ∀ l : List α, (sortDesc f l).Pairwise (fun p q => f q ≤ f p) := by
  intro l
  induction l with
  | nil => simp [sortDesc]
  | cons a l ih => exact insertDesc_sorted f a (sortDesc f l) ih

theorem eq_of_perm_of_pairwise_lt {α : Type} (f : α → Nat) :
    ∀ {l1 l2 : List α}, l1.Perm l2 → l1.Pairwise (fun p q => f q < f p) →
      l2.Pairwise (fun p q => f q < f p) → l1 = l2 := by
  intro l1
  induction l1 with
  | nil =>
    intro l2 h _ _
    exact h.nil_eq
  | cons a t ih =>
    intro l2 h h1 h2
    cases l2 with
    | nil => exact absurd h.symm.nil_eq (by simp)
    | cons b t2 =>
      have hab : a = b := by
        by_contra hne
        have ha2 : a ∈ b :: t2 := h.mem_iff.1 (List.mem_cons_self a t)
        have hb1 : b ∈ a :: t := h.symm.mem_iff.1 (List.mem_cons_self b t2)
        have ha' : a ∈ t2 := by
          rcases List.mem_cons.1 ha2 with hx | hx
          · exact absurd hx hne
          · exact hx
        have hb' : b ∈ t := by
          rcases List.mem_cons.1 hb1 with hx | hx
          · exact absurd hx.symm hne
          · exact hx
        have hba : f b < f a := (List.pairwise_cons.1 h1).1 b hb'
        have hab' : f a < f b := (List.pairwise_cons.1 h2).1 a ha'
        omega
      subst hab
      rw [ih h.cons_inv (List.pairwise_cons.1 h1).2 (List.pairwise_cons.1 h2).2]

theorem sortDesc_eq_of_perm {α : Type} (f : α → Nat) {l1 l2 : List α} (h : l1.Perm l2)
    (hne : l1.Pairwise (fun p q => f p ≠ f q)) : sortDesc f l1 = sortDesc f l2 := by
  have hsym : ∀ {x y : α}, f x ≠ f y → f y ≠ f x := fun hx => hx.symm
  have hne1 : (sortDesc f l1).Pairwise (fun p q => f p ≠ f q) :=
    ((sortDesc_perm f l1).pairwise_iff hsym).2 hne
  have hne2 : (sortDesc f l2).Pairwise (fun p q => f p ≠ f q) :=
    ((sortDesc_perm f l2).pairwise_iff hsym).2 (((h.pairwise_iff hsym).1 hne))
  have hs1 : (sortDesc f l1).Pairwise (fun p q => f q < f p) :=
    ((sortDesc_sorted f l1).and hne1).imp fun hpq => lt_of_le_of_ne hpq.1 (Ne.symm hpq.2)
  have hs2 : (sortDesc f l2).Pairwise (fun p q => f q < f p) :=
    ((sortDesc_sorted f l2).and hne2).imp fun hpq => lt_of_le_of_ne hpq.1 (Ne.symm hpq.2)
  exact eq_of_perm_of_pairwise_lt f
    ((sortDesc_perm f l1).trans (h.trans (sortDesc_perm f l2).symm)) hs1 hs2

theorem mostCommon_eq_of_perm (n : Nat) {ks1 ks2 : List String} (h : ks1.Perm ks2)
    (hne : (counterItems ks1).Pairwise (fun p q => p.2 ≠ q.2)) :
    mostCommon n ks1 = mostCommon n ks2 := by
  unfold mostCommon
  rw [sortDesc_eq_of_perm Prod.snd (counterItems_perm h) hne]

theorem foldOpt_perm {α : Type} (f : α → α → α) (hc : ∀ a b, f a b = f b a)
    (ha : ∀ a b c, f (f a b) c = f a (f b c)) :
    ∀ {l1 l2 : List α}, l1.Perm l2 → foldOpt f l1 = foldOpt f l2 := by
  intro l1 l2 h
  induction h with
  | nil => rfl
  | cons x h ih => simp only [foldOpt, ih]
  | swap x y l =>
    simp only [foldOpt]
    cases foldOpt f l with
    | none => simp [hc x y]
    | some m => simp [← ha, hc x y]
  | trans h1 h2 ih1 ih2 => exact ih1.trans ih2

theorem flatMap_perm {α β : Type} (f : α → List β) {l1 l2 : List α} (h : l1.Perm l2) :
    (l1.flatMap f).Perm (l2.flatMap f) := by
  rw [List.flatMap_def, List.flatMap_def]
  exact (h.map f).flatten

theorem any_perm {α : Type} (p : α → Bool) {l1 l2 : List α} (h : l1.Perm l2) :
    l1.any p = l2.any p := by
  apply Bool.eq_iff_iff.mpr
  simp only [List.any_eq_true]
  exact ⟨fun ⟨x, hx, hp⟩ => ⟨x, h.mem_iff.1 hx, hp⟩, fun ⟨x, hx, hp⟩ => ⟨x, h.mem_iff.2 hx, hp⟩⟩

theorem length_filterMap_eq {α β : Type} (f : α → Option β) :
    ∀ l : List α, (l.filterMap f).length = l.countP (fun a => (f a).isSome) := by
  intro l
  induction l with
  | nil => rfl
  | cons a l ih =>
    rw [List.filterMap_cons]
    cases hfa : f a <;> simp [List.countP_cons, hfa, ih]

theorem pyHour_bounds (t : Int) : 0 ≤ pyHour t ∧ pyHour t < 24 := by
  unfold pyHour
  rw [Int.fmod_eq_emod _ (by norm_num)]
  exact ⟨Int.emod_nonneg _ (by norm_num), Int.emod_lt_of_pos _ (by norm_num)⟩

theorem foldl_bumpTime_eq : ∀ (hs : List Int) (a : TimeActivity),
    hs.foldl bumpTime a =
      ⟨a.morning + hs.countP (fun h => decide (6 ≤ h ∧ h < 12)),
       a.afternoon + hs.countP (fun h => decide (12 ≤ h ∧ h < 17)),
       a.evening + hs.countP (fun h => decide (17 ≤ h ∧ h < 22)),
       a.night + hs.countP (fun h => decide (h < 6 ∨ 22 ≤ h))⟩ := by
  intro hs
  induction hs with
  | nil => intro a; simp
  | cons h t ih =>
    intro a
    rw [List.foldl_cons, ih (bumpTime a h)]
    simp only [List.countP_cons, decide_eq_true_eq]
    unfold bumpTime
    split_ifs with c1 c2 c3 <;>
      refine TimeActivity.mk.injEq .. ▸ ⟨?_, ?_, ?_, ?_⟩ <;> simp <;> omega

theorem foldl_bumpSize_eq : ∀ (ss : List Int) (a : SizeRanges),
    ss.foldl bumpSize a =
      ⟨a.small + ss.countP (fun s => decide (s < 1024)),
       a.medium + ss.countP (fun s => decide (1024 ≤ s ∧ s < 10240)),
       a.large + ss.countP (fun s => decide (10240 ≤ s ∧ s < 102400)),
       a.veryLarge + ss.countP (fun s => decide (102400 ≤ s))⟩ := by
  intro ss
  induction ss with
  | nil => intro a; simp
  | cons s t ih =>
    intro a
    rw [List.foldl_cons, ih (bumpSize a s)]
    simp only [List.countP_cons, decide_eq_true_eq]
    unfold bumpSize
    split_ifs with c1 c2 c3 <;>
      refine SizeRanges.mk.injEq .. ▸ ⟨?_, ?_, ?_, ?_⟩ <;> simp <;> omega

/-! ### Claim C1 -/

/-- A two-record input whose single thread group of size two contains a record
without a timestamp. -/
def c1Emails : List EmailMessage :=
  [⟨some "hello", none, some 0, none, [], 0⟩,
   ⟨some "hello", none, none, none, [], 0⟩]

/-- C1, counterexample: at `c1Emails` the response-time sub-statistic raises,
and the whole `analyze` call aborts with it — no bundle carrying the other
thirteen sub-statistics (and an empty response-time form) is returned, so a
fault in one sub-statistic is not isolated. -/
theorem C1_counterexample :
    analyzeResponseTimes c1Emails = none ∧ analyzeEmails c1Emails = none :=
  ⟨by decide, by decide⟩

/-- C1, amended: an exception raised inside a sub-statistic computation of
`analyze` is not caught: whenever the response-time sub-statistic raises, the
whole `analyze` call raises and no bundle is returned. -/
theorem C1_fault_propagates (es : List EmailMessage)
    (h : analyzeResponseTimes es = none) : analyzeEmails es = none := by
  unfold analyzeEmails
  by_cases he : es.isEmpty
  · exfalso
    have hnil : es = [] := List.isEmpty_iff.1 he
    subst hnil
    exact absurd h (by decide)
  · rw [if_neg he, h]

/-- A two-record input for which the response-time computation raises. -/
def c1wEmails : List EmailMessage :=
  [⟨some "hi", none, none, none, [], 0⟩,
   ⟨some "hi", none, none, none, [], 0⟩]

/-- Witness for `C1_fault_propagates` at `c1wEmails`. -/
theorem C1_witness : analyzeEmails c1wEmails = none :=
  C1_fault_propagates c1wEmails (by decide)

/-! ### Claim C2 -/

/-- Two records in one thread, the second lacking its timestamp. -/
def c2Emails : List EmailMessage :=
  [⟨some "meeting", none, some 3600, none, [], 10⟩,
   ⟨some "meeting", none, none, none, [], 20⟩]

/-- C2, counterexample: a record whose timestamp is absent but which belongs
to a thread of two members makes `analyze` raise (the uncaught `TypeError`
from comparing `None` with a datetime inside `sorted`). -/
theorem C2_counterexample :
    (threadGroup c2Emails "meeting").length = 2 ∧ analyzeEmails c2Emails = none :=
  ⟨by decide, by decide⟩

/-- C2, amended: `analyze` returns a bundle exactly when the input is empty or
no thread group with at least two members contains a record without a
timestamp; missing subjects, missing senders, empty bodies, and missing
timestamps outside such groups never make the call raise. -/
theorem C2_totality (es : List EmailMessage) :
    (analyzeEmails es).isSome = true ↔
      (es = [] ∨ ∀ k ∈ threadKeys es, 2 ≤ (threadGroup es k).length →
        ∀ e ∈ threadGroup es k, e.date ≠ none) := by
  unfold analyzeEmails
  by_cases he : es.isEmpty
  · simp [he, List.isEmpty_iff.1 he]
  · have hne : ¬(es = []) := fun hh => he (by simp [hh])
    rw [if_neg he]
    by_cases hf : threadFails es
    · have hnone : analyzeResponseTimes es = none := by
        unfold analyzeResponseTimes
        rw [if_pos hf]
      rw [hnone]
      simp only [Option.isSome_none, Bool.false_eq_true, false_iff]
      intro hor
      rcases hor with hor | hall
      · exact hne hor
      · unfold threadFails at hf
        simp only [List.any_eq_true, Bool.and_eq_true, decide_eq_true_eq] at hf
        obtain ⟨k, hk, hlen, e, hmem, hd⟩ := hf
        exact hall k hk hlen e hmem (Option.isNone_iff_eq_none.1 hd)
    · obtain ⟨rt, hrt⟩ : ∃ rt, analyzeResponseTimes es = some rt := by
        unfold analyzeResponseTimes
        rw [if_neg hf]
        by_cases hp : (responsePool es).isEmpty
        · rw [if_pos hp]; exact ⟨_, rfl⟩
        · rw [if_neg hp]; exact ⟨_, rfl⟩
      rw [hrt]
      simp only [Option.isSome_some, true_iff]
      right
      intro k hk hlen e hmem hd
      have hfail : threadFails es = true := by
        unfold threadFails
        simp only [List.any_eq_true, Bool.and_eq_true, decide_eq_true_eq]
        exact ⟨k, hk, hlen, e, hmem, by simp [hd]⟩
      exact hf hfail

/-! ### Claim C3 -/

/-- C3, counterexample: for the empty input the `sentiment_analysis`
sub-statistic of the returned bundle is the bare empty mapping — it carries
no percentage entries at all, so "the three sentiment percentages are 0"
fails for the empty bundle. -/
theorem C3_counterexample :
    analyzeEmails [] = some emptyResults ∧
    ¬∃ sa : SentimentAnalysis, emptyResults.sentiment_analysis = some sa := by
  refine ⟨rfl, ?_⟩
  rintro ⟨sa, hsa⟩
  simp [emptyResults] at hsa

/-- C3, amended: for the empty input sequence `analyze` returns the documented
empty bundle for every one of the 14 keys — `total_emails` is 0, `date_range`
is `"No emails"`, `total_size_mb` is 0, `top_senders` is the empty list, the
three activity histograms are empty, and each remaining sub-statistic is the
bare empty mapping (in particular `sentiment_analysis` is `{}`; its
percentage entries are absent rather than equal to 0). -/
theorem C3_empty_bundle :
    analyzeEmails [] = some
      { total_emails := 0
        date_range := "No emails"
        total_size_mb := 0
        top_senders := []
        activity_by_time := ⟨0, 0, 0, 0⟩
        activity_by_day := List.replicate 7 0
        activity_by_hour := List.replicate 24 0
        subject_analysis := none
        attachment_analysis := none
        email_size_distribution := none
        thread_analysis := none
        domain_analysis := none
        sentiment_analysis := none
        keyword_analysis := none
        response_time_analysis := none } := rfl

/-! ### Claim C4 -/

/-- C4: whenever `analyze` returns a bundle, its `total_emails` field is the
length of the input sequence and its `total_size_mb` field is the sum of the
records' byte sizes divided by 1,048,576 (exactly, over `ℚ`), regardless of
missing or malformed other fields. -/
theorem C4_totals (es : List EmailMessage) (b : AnalysisResults)
    (h : analyzeEmails es = some b) :
    b.total_emails = es.length ∧
    b.total_size_mb = (((es.map (fun e => e.size)).sum : Int) : ℚ) / 1048576 := by
  unfold analyzeEmails at h
  by_cases he : es.isEmpty
  · rw [if_pos he] at h
    obtain rfl := Option.some.inj h
    obtain rfl : es = [] := List.isEmpty_iff.1 he
    exact ⟨rfl, by simp [emptyResults]⟩
  · rw [if_neg he] at h
    cases hrt : analyzeResponseTimes es with
    | none => rw [hrt] at h; exact absurd h (by simp)
    | some rt =>
      rw [hrt] at h
      obtain rfl := Option.some.inj h
      refine ⟨rfl, ?_⟩
      show calculateTotalSize es = _
      unfold calculateTotalSize
      norm_num

/-- One record with no text fields and size 1 MiB. -/
def c4Email : EmailMessage := ⟨none, none, none, none, [], 1048576⟩

/-- The bundle `analyze` computes at `[c4Email]`. -/
def c4Bundle : AnalysisResults := (analyzeEmails [c4Email]).getD emptyResults

/-- Witness for `C4_totals` at the one-record input `[c4Email]`. -/
theorem C4_witness :
    c4Bundle.total_emails = [c4Email].length ∧
    c4Bundle.total_size_mb = ((([c4Email].map (fun e => e.size)).sum : Int) : ℚ) / 1048576 :=
  C4_totals [c4Email] c4Bundle rfl

/-! ### More helpers: partitions and thread statistics -/

theorem countP_hours (es : List EmailMessage) (p : Int → Bool) :
    (es.filterMap (fun e => e.date.map pyHour)).countP p =
      es.countP (fun e => match e.date with
        | some d => p (pyHour d)
        | none => false) := by
  rw [List.countP_filterMap]
  apply List.countP_congr
  intro e _
  cases e.date <;> simp

theorem size_bands_partition (l : List Int) :
    l.countP (fun s => decide (s < 1024)) + l.countP (fun s => decide (1024 ≤ s ∧ s < 10240)) +
      l.countP (fun s => decide (10240 ≤ s ∧ s < 102400)) +
      l.countP (fun s => decide (102400 ≤ s)) = l.length := by
  induction l with
  | nil => rfl
  | cons s t ih =>
    simp only [List.countP_cons, List.length_cons, decide_eq_true_eq]
    split_ifs <;> omega

theorem time_bands_partition (l : List Int) :
    l.countP (fun h => decide (6 ≤ h ∧ h < 12)) + l.countP (fun h => decide (12 ≤ h ∧ h < 17)) +
      l.countP (fun h => decide (17 ≤ h ∧ h < 22)) +
      l.countP (fun h => decide (h < 6 ∨ 22 ≤ h)) = l.length := by
  induction l with
  | nil => rfl
  | cons h t ih =>
    simp only [List.countP_cons, List.length_cons, decide_eq_true_eq]
    split_ifs <;> omega

theorem mem_threadStats {es : List EmailMessage} {t : ThreadStat} (h : t ∈ threadStats es) :
    2 ≤ t.count := by
  unfold threadStats at h
  obtain ⟨k, _, heq⟩ := List.mem_filterMap.1 h
  by_cases hlen : 2 ≤ (threadGroup es k).length
  · rw [if_pos hlen] at heq
    obtain rfl := Option.some.inj heq
    exact hlen
  · rw [if_neg hlen] at heq
    exact absurd heq (by simp)

theorem threadStats_length (es : List EmailMessage) :
    (threadStats es).length =
      ((threadKeys es).filter (fun k => decide (2 ≤ (threadGroup es k).length))).length := by
  unfold threadStats
  rw [length_filterMap_eq, ← List.countP_eq_length_filter]
  apply List.countP_congr
  intro k _
  by_cases hlen : 2 ≤ (threadGroup es k).length <;> simp [hlen]

/-! ### Claim C5 -/

/-- C5: any two records whose subjects have the same thread key (reply or
forward marker stripped, then lowercased) land in the same thread group; the
three subjects `"Re: Budget Q1"`, `"RE: budget q1"`, `"Budget Q1"` all
collapse to the key `"budget q1"`; `total_threads` counts exactly the groups
with at least two members, and every entry of `top_threads` has at least two
members, so singleton groups appear in neither. -/
theorem C5_thread_grouping :
    (cleanKey "Re: Budget Q1" = "budget q1" ∧ cleanKey "RE: budget q1" = "budget q1" ∧
      cleanKey "Budget Q1" = "budget q1") ∧
    (∀ (es : List EmailMessage) (e1 e2 : EmailMessage) (s1 s2 : String),
      e1 ∈ es → e2 ∈ es → e1.subject = some s1 → s1 ≠ "" → e2.subject = some s2 → s2 ≠ "" →
      cleanKey s1 = cleanKey s2 →
      e1 ∈ threadGroup es (cleanKey s1) ∧ e2 ∈ threadGroup es (cleanKey s1)) ∧
    (∀ es : List EmailMessage,
      (analyzeThreads es).total_threads =
        ((threadKeys es).filter (fun k => decide (2 ≤ (threadGroup es k).length))).length) ∧
    (∀ (es : List EmailMessage) (t : ThreadStat),
      t ∈ (analyzeThreads es).top_threads → 2 ≤ t.count) := by
  refine ⟨⟨by decide, by decide, by decide⟩, ?_, ?_, ?_⟩
  · intro es e1 e2 s1 s2 he1 he2 hs1 hs1ne hs2 hs2ne hkey
    have hk1 : subjectKey e1 = some (cleanKey s1) := by
      simp only [subjectKey, hs1]
      rw [if_neg (by simpa [String.isEmpty_iff] using hs1ne)]
    have hk2 : subjectKey e2 = some (cleanKey s1) := by
      simp only [subjectKey, hs2]
      rw [if_neg (by simpa [String.isEmpty_iff] using hs2ne), hkey]
    exact ⟨List.mem_filter.2 ⟨he1, by simp [hk1]⟩, List.mem_filter.2 ⟨he2, by simp [hk2]⟩⟩
  · intro es
    show (List.filter _ (sortDesc _ (threadStats es))).length = _
    have hall : (sortDesc (fun t => t.count) (threadStats es)).filter
        (fun t => decide (1 < t.count)) = sortDesc (fun t => t.count) (threadStats es) := by
      apply List.filter_eq_self.2
      intro t ht
      have := mem_threadStats ((sortDesc_perm _ _).mem_iff.1 ht)
      simpa using this
    rw [hall, (sortDesc_perm _ _).length_eq, threadStats_length]
  · intro es t ht
    have hmem : t ∈ sortDesc (fun t => t.count) (threadStats es) :=
      List.take_subset _ _ ht
    exact mem_threadStats ((sortDesc_perm _ _).mem_iff.1 hmem)

/-- The three records of the spec's thread-grouping example. -/
def c5Emails : List EmailMessage :=
  [⟨some "Re: Budget Q1", none, none, none, [], 0⟩,
   ⟨some "RE: budget q1", none, none, none, [], 0⟩,
   ⟨some "Budget Q1", none, none, none, [], 0⟩]

/-- Witness for `C5_thread_grouping` on the spec's example records. -/
theorem C5_witness :
    (⟨some "Re: Budget Q1", none, none, none, [], 0⟩ : EmailMessage) ∈
      threadGroup c5Emails (cleanKey "Re: Budget Q1") ∧
    2 ≤ (⟨"budget q1", 3, "No valid dates"⟩ : ThreadStat).count :=
  ⟨(C5_thread_grouping.2.1 c5Emails ⟨some "Re: Budget Q1", none, none, none, [], 0⟩
      ⟨some "Budget Q1", none, none, none, [], 0⟩ "Re: Budget Q1" "Budget Q1"
      (by decide) (by decide) rfl (by decide) rfl (by decide) (by decide)).1,
   C5_thread_grouping.2.2.2 c5Emails ⟨"budget q1", 3, "No valid dates"⟩ (by decide)⟩

/-! ### Claim C6 -/

/-- C6: time-of-day activity buckets every record with a timestamp by its
hour into exactly the four fixed bands — Morning [6,12), Afternoon [12,17),
Evening [17,22) and Night [22,24)∪[0,6) — and in particular a record at hour
5 falls in Night, hour 6 in Morning, hour 11 in Morning, hour 12 in
Afternoon. -/
theorem C6_time_bands :
    (∀ es : List EmailMessage,
      (analyzeTimeActivity es).morning = es.countP (fun e => match e.date with
        | some d => decide (6 ≤ pyHour d ∧ pyHour d < 12)
        | none => false) ∧
      (analyzeTimeActivity es).afternoon = es.countP (fun e => match e.date with
        | some d => decide (12 ≤ pyHour d ∧ pyHour d < 17)
        | none => false) ∧
      (analyzeTimeActivity es).evening = es.countP (fun e => match e.date with
        | some d => decide (17 ≤ pyHour d ∧ pyHour d < 22)
        | none => false) ∧
      (analyzeTimeActivity es).night = es.countP (fun e => match e.date with
        | some d => decide ((22 ≤ pyHour d ∧ pyHour d < 24) ∨ (0 ≤ pyHour d ∧ pyHour d < 6))
        | none => false)) ∧
    analyzeTimeActivity [⟨none, none, some (5 * 3600), none, [], 0⟩] = ⟨0, 0, 0, 1⟩ ∧
    analyzeTimeActivity [⟨none, none, some (6 * 3600), none, [], 0⟩] = ⟨1, 0, 0, 0⟩ ∧
    analyzeTimeActivity [⟨none, none, some (11 * 3600), none, [], 0⟩] = ⟨1, 0, 0, 0⟩ ∧
    analyzeTimeActivity [⟨none, none, some (12 * 3600), none, [], 0⟩] = ⟨0, 1, 0, 0⟩ := by
  refine ⟨fun es => ?_, by decide, by decide, by decide, by decide⟩
  unfold analyzeTimeActivity
  rw [foldl_bumpTime_eq]
  refine ⟨?_, ?_, ?_, ?_⟩ <;> simp only [Nat.zero_add] <;> rw [countP_hours]
  apply List.countP_congr
  intro e _
  cases e.date with
  | none => simp
  | some d =>
    have hb := pyHour_bounds d
    simp only [decide_eq_true_eq]
    constructor
    · intro h'
      omega
    · intro h'
      omega

/-! ### Claim C7 -/

/-- C7: size distribution buckets every record by its byte size into exactly
the four fixed bands Small (< 1024), Medium ([1024, 10240)),
Large ([10240, 102400)) and Very Large (≥ 102400); a record of size exactly
1024 falls in Medium, not Small, and one of size exactly 102400 falls in
Very Large, not Large. -/
theorem C7_size_bands :
    (∀ sizes : List Int,
      sizes.foldl bumpSize ⟨0, 0, 0, 0⟩ =
        ⟨sizes.countP (fun s => decide (s < 1024)),
         sizes.countP (fun s => decide (1024 ≤ s ∧ s < 10240)),
         sizes.countP (fun s => decide (10240 ≤ s ∧ s < 102400)),
         sizes.countP (fun s => decide (102400 ≤ s))⟩) ∧
    analyzeSizeDistribution [⟨none, none, none, none, [], 1024⟩] =
      some ⟨⟨0, 1, 0, 0⟩, 1024, 1024, 1024⟩ ∧
    analyzeSizeDistribution [⟨none, none, none, none, [], 102400⟩] =
      some ⟨⟨0, 0, 0, 1⟩, 102400, 102400, 102400⟩ := by
  refine ⟨fun sizes => ?_, ?_, ?_⟩
  · rw [foldl_bumpSize_eq]
    simp
  · unfold analyzeSizeDistribution
    norm_num [foldOpt, bumpSize]
  · unfold analyzeSizeDistribution
    norm_num [foldOpt, bumpSize]

/-! ### Claim C9 -/

/-- C9: for a non-empty input on which `analyze` returns a bundle, the four
size-distribution band counts sum to `total_emails`, and the four time-of-day
band counts sum to the number of records carrying a timestamp — each record
falls in exactly one band of each histogram. -/
theorem C9_partition (es : List EmailMessage) (b : AnalysisResults) (sd : SizeDistribution)
    (h : analyzeEmails es = some b) (hsd : b.email_size_distribution = some sd) :
    sd.size_ranges.small + sd.size_ranges.medium + sd.size_ranges.large +
        sd.size_ranges.veryLarge = b.total_emails ∧
    b.activity_by_time.morning + b.activity_by_time.afternoon + b.activity_by_time.evening +
        b.activity_by_time.night = es.countP (fun e => e.date.isSome) := by
  unfold analyzeEmails at h
  by_cases he : es.isEmpty
  · rw [if_pos he] at h
    obtain rfl := Option.some.inj h
    exact absurd hsd (by simp [emptyResults])
  · rw [if_neg he] at h
    cases hrt : analyzeResponseTimes es with
    | none => rw [hrt] at h; exact absurd h (by simp)
    | some rt =>
      rw [hrt] at h
      obtain rfl := Option.some.inj h
      dsimp only at hsd ⊢
      constructor
      · have hsd' : analyzeSizeDistribution es = some sd := hsd
        unfold analyzeSizeDistribution at hsd'
        by_cases hemp : (es.map (fun e => e.size)).isEmpty
        · rw [if_pos hemp] at hsd'
          exact absurd hsd' (by simp)
        · rw [if_neg hemp] at hsd'
          obtain rfl := Option.some.inj hsd'
          dsimp only
          rw [foldl_bumpSize_eq]
          simp only [Nat.zero_add]
          rw [size_bands_partition, List.length_map]
      · unfold analyzeTimeActivity
        rw [foldl_bumpTime_eq]
        simp only [Nat.zero_add]
        rw [time_bands_partition, length_filterMap_eq]
        apply List.countP_congr
        intro e _
        cases e.date <;> simp

/-- One record with a timestamp, for the C9 witness. -/
def c9Email : EmailMessage := ⟨none, none, some 0, none, [], 500⟩

/-- The bundle `analyze` computes at `[c9Email]`. -/
def c9Bundle : AnalysisResults := (analyzeEmails [c9Email]).getD emptyResults

/-- The size distribution inside `c9Bundle`. -/
def c9Sd : SizeDistribution :=
  (analyzeSizeDistribution [c9Email]).getD ⟨⟨0, 0, 0, 0⟩, 0, 0, 0⟩

/-- Witness for `C9_partition` at the one-record input `[c9Email]`. -/
theorem C9_witness :
    c9Sd.size_ranges.small + c9Sd.size_ranges.medium + c9Sd.size_ranges.large +
        c9Sd.size_ranges.veryLarge = c9Bundle.total_emails ∧
    c9Bundle.activity_by_time.morning + c9Bundle.activity_by_time.afternoon +
        c9Bundle.activity_by_time.evening + c9Bundle.activity_by_time.night =
      [c9Email].countP (fun e => e.date.isSome) :=
  C9_partition [c9Email] c9Bundle c9Sd rfl rfl

/-! ### Claim C10 -/

/-- C10: thread-key normalization strips at most one leading reply/forward
marker: for any subject of the form `"Re: Fwd: " ++ rest`, the computed key
is `"fwd: " ++ rest.lower()` — it still contains the second marker — so
`"Re: Fwd: Hello"` keys to `"fwd: hello"`, which differs from the key
`"hello"` of the bare subject `"Hello"`, and records with those two subjects
are grouped into distinct threads. -/
theorem C10_single_strip :
    (∀ cs : List Char, stripReFwd ("Re: Fwd: ".data ++ cs) = "Fwd: ".data ++ cs) ∧
    (∀ cs : List Char,
      cleanKey ⟨"Re: Fwd: ".data ++ cs⟩ = ⟨"fwd: ".data ++ cs.map Char.toLower⟩) ∧
    cleanKey "Re: Fwd: Hello" = "fwd: hello" ∧
    cleanKey "Hello" = "hello" ∧
    subjectKey ⟨some "Re: Fwd: Hello", none, none, none, [], 0⟩ ≠
      subjectKey ⟨some "Hello", none, none, none, [], 0⟩ := by
  refine ⟨fun cs => rfl, fun cs => rfl, by decide, by decide, by decide⟩

/-! ### Helpers for order-insensitivity (claim C8) -/

theorem insertAsc_perm (x : Int) : ∀ l : List Int, (insertAsc x l).Perm (x :: l) := by
  intro l
  induction l with
  | nil => exact .refl _
  | cons y l ih =>
    by_cases hc : y ≤ x
    · rw [insertAsc, if_pos hc]
      exact (ih.cons y).trans (List.Perm.swap x y l)
    · rw [insertAsc, if_neg hc]

theorem sortInts_perm : ∀ l : List Int, (sortInts l).Perm l := by
  intro l
  induction l with
  | nil => exact .refl _
  | cons a l ih => exact (insertAsc_perm a (sortInts l)).trans (ih.cons a)

theorem insertAsc_sorted (x : Int) :
    ∀ l : List Int, l.Pairwise (· ≤ ·) → (insertAsc x l).Pairwise (· ≤ ·) := by
  intro l
  induction l with
  | nil => simp [insertAsc]
  | cons y l ih =>
    intro h
    obtain ⟨hy, hl⟩ := List.pairwise_cons.1 h
    by_cases hc : y ≤ x
    · rw [insertAsc, if_pos hc]
      refine List.pairwise_cons.2 ⟨fun b hb => ?_, ih hl⟩
      rcases List.mem_cons.1 ((insertAsc_perm x l).mem_iff.1 hb) with hb | hb
      · exact hb ▸ hc
      · exact hy b hb
    · rw [insertAsc, if_neg hc]
      refine List.pairwise_cons.2 ⟨fun b hb => ?_, h⟩
      rcases List.mem_cons.1 hb with hb | hb
      · exact hb ▸ le_of_not_le hc
      · exact le_trans (le_of_not_le hc) (hy b hb)

theorem sortInts_sorted : ∀ l : List Int, (sortInts l).Pairwise (· ≤ ·) := by
  intro l
  induction l with
  | nil => simp [sortInts]
  | cons a l ih => exact insertAsc_sorted a (sortInts l) ih

theorem sortInts_eq_of_perm {l1 l2 : List Int} (h : l1.Perm l2) : sortInts l1 = sortInts l2 :=
  List.eq_of_perm_of_sorted ((sortInts_perm l1).trans (h.trans (sortInts_perm l2).symm))
    (sortInts_sorted l1) (sortInts_sorted l2)

theorem domainKeys_perm {es1 es2 : List EmailMessage} (h : es1.Perm es2) :
    (domainKeys es1).Perm (domainKeys es2) := by
  unfold domainKeys
  exact h.filterMap _

theorem subjectWords_perm {es1 es2 : List EmailMessage} (h : es1.Perm es2) :
    (subjectWords es1).Perm (subjectWords es2) := by
  unfold subjectWords
  exact flatMap_perm _ h

theorem keywordList_perm {es1 es2 : List EmailMessage} (h : es1.Perm es2) :
    (keywordList es1).Perm (keywordList es2) := by
  unfold keywordList
  exact flatMap_perm _ h

theorem attachmentExts_perm {es1 es2 : List EmailMessage} (h : es1.Perm es2) :
    (attachmentExts es1).Perm (attachmentExts es2) := by
  unfold attachmentExts
  exact flatMap_perm _ h

theorem threadKeys_perm {es1 es2 : List EmailMessage} (h : es1.Perm es2) :
    (threadKeys es1).Perm (threadKeys es2) :=
  firstDedup_perm (h.filterMap _)

theorem threadGroup_perm {es1 es2 : List EmailMessage} (h : es1.Perm es2) (k : String) :
    (threadGroup es1 k).Perm (threadGroup es2 k) :=
  h.filter _

theorem dateRange_perm {es1 es2 : List EmailMessage} (h : es1.Perm es2) :
    dateRange es1 = dateRange es2 := by
  unfold dateRange
  dsimp only
  have hd := h.filterMap (fun e => e.date)
  rw [h.isEmpty_eq, hd.isEmpty_eq, foldOpt_perm min (fun a b => min_comm a b)
        (fun a b c => min_assoc a b c) hd,
      foldOpt_perm max (fun a b => max_comm a b) (fun a b c => max_assoc a b c) hd]

theorem calculateTotalSize_perm {es1 es2 : List EmailMessage} (h : es1.Perm es2) :
    calculateTotalSize es1 = calculateTotalSize es2 := by
  unfold calculateTotalSize
  rw [(h.map (fun e => e.size)).sum_eq]

theorem threadStats_perm {es1 es2 : List EmailMessage} (h : es1.Perm es2) :
    (threadStats es1).Perm (threadStats es2) := by
  unfold threadStats
  dsimp only
  have hfun :
      (fun k =>
        if 2 ≤ (threadGroup es1 k).length then
          some (⟨k, (threadGroup es1 k).length, dateRange (threadGroup es1 k)⟩ : ThreadStat)
        else none) =
      (fun k =>
        if 2 ≤ (threadGroup es2 k).length then
          some (⟨k, (threadGroup es2 k).length, dateRange (threadGroup es2 k)⟩ : ThreadStat)
        else none) :=
    funext fun k => by
      rw [(threadGroup_perm h k).length_eq, dateRange_perm (threadGroup_perm h k)]
  rw [hfun]
  exact (threadKeys_perm h).filterMap _

theorem threadFails_perm {es1 es2 : List EmailMessage} (h : es1.Perm es2) :
    threadFails es1 = threadFails es2 := by
  unfold threadFails
  dsimp only
  have hfun :
      (fun k => decide (2 ≤ (threadGroup es1 k).length) &&
        (threadGroup es1 k).any (fun e => e.date.isNone)) =
      (fun k => decide (2 ≤ (threadGroup es2 k).length) &&
        (threadGroup es2 k).any (fun e => e.date.isNone)) :=
    funext fun k => by
      rw [(threadGroup_perm h k).length_eq, any_perm _ (threadGroup_perm h k)]
  rw [hfun]
  exact any_perm _ (threadKeys_perm h)

theorem threadDeltas_congr {es1 es2 : List EmailMessage} (h : es1.Perm es2) (k : String) :
    threadDeltas es1 k = threadDeltas es2 k := by
  unfold threadDeltas
  dsimp only
  rw [(threadGroup_perm h k).length_eq,
      sortInts_eq_of_perm ((threadGroup_perm h k).filterMap (fun e => e.date))]

theorem responsePool_perm {es1 es2 : List EmailMessage} (h : es1.Perm es2) :
    (responsePool es1).Perm (responsePool es2) := by
  unfold responsePool
  rw [funext (threadDeltas_congr h)]
  exact flatMap_perm _ (threadKeys_perm h)

theorem analyzeResponseTimes_perm {es1 es2 : List EmailMessage} (h : es1.Perm es2) :
    analyzeResponseTimes es1 = analyzeResponseTimes es2 := by
  unfold analyzeResponseTimes
  dsimp only
  rw [threadFails_perm h]
  by_cases hf : threadFails es2
  · rw [if_pos hf, if_pos hf]
  · rw [if_neg hf, if_neg hf]
    have hp := responsePool_perm h
    rw [hp.isEmpty_eq, hp.length_eq, hp.sum_eq,
        foldOpt_perm min (fun a b => min_comm a b) (fun a b c => min_assoc a b c) hp,
        foldOpt_perm max (fun a b => max_comm a b) (fun a b c => max_assoc a b c) hp]

theorem analyzeSenders_perm {es1 es2 : List EmailMessage} (h : es1.Perm es2)
    (hne : (counterItems (es1.filterMap senderKey)).Pairwise (fun p q => p.2 ≠ q.2)) :
    analyzeSenders es1 = analyzeSenders es2 := by
  unfold analyzeSenders
  exact mostCommon_eq_of_perm 20 (h.filterMap senderKey) hne

theorem analyzeTimeActivity_perm {es1 es2 : List EmailMessage} (h : es1.Perm es2) :
    analyzeTimeActivity es1 = analyzeTimeActivity es2 := by
  unfold analyzeTimeActivity
  have hp := h.filterMap (fun e => e.date.map pyHour)
  rw [foldl_bumpTime_eq, foldl_bumpTime_eq, hp.countP_eq, hp.countP_eq, hp.countP_eq,
      hp.countP_eq]

theorem analyzeDailyActivity_perm {es1 es2 : List EmailMessage} (h : es1.Perm es2) :
    analyzeDailyActivity es1 = analyzeDailyActivity es2 := by
  unfold analyzeDailyActivity
  exact List.map_congr_left fun i _ => h.countP_eq _

theorem analyzeHourlyActivity_perm {es1 es2 : List EmailMessage} (h : es1.Perm es2) :
    analyzeHourlyActivity es1 = analyzeHourlyActivity es2 := by
  unfold analyzeHourlyActivity
  exact List.map_congr_left fun i _ => h.countP_eq _

theorem analyzeSubjects_perm {es1 es2 : List EmailMessage} (h : es1.Perm es2)
    (hne : (counterItems (subjectWords es1)).Pairwise (fun p q => p.2 ≠ q.2)) :
    analyzeSubjects es1 = analyzeSubjects es2 := by
  unfold analyzeSubjects
  dsimp only
  have hl : (subjectLengths es1).Perm (subjectLengths es2) := h.filterMap _
  have hw := subjectWords_perm h
  rw [hl.isEmpty_eq, hl.sum_eq, hl.length_eq,
      foldOpt_perm max (fun a b => max_comm a b) (fun a b c => max_assoc a b c) hl,
      foldOpt_perm min (fun a b => min_comm a b) (fun a b c => min_assoc a b c) hl,
      mostCommon_eq_of_perm 20 hw hne, hw.length_eq]

theorem analyzeAttachments_perm {es1 es2 : List EmailMessage} (h : es1.Perm es2)
    (hne : (counterItems (attachmentExts es1)).Pairwise (fun p q => p.2 ≠ q.2)) :
    analyzeAttachments es1 = analyzeAttachments es2 := by
  unfold analyzeAttachments
  dsimp only
  rw [h.countP_eq, (h.map (fun e => e.attachments.length)).sum_eq,
      mostCommon_eq_of_perm 10 (attachmentExts_perm h) hne, h.isEmpty_eq, h.length_eq]

theorem analyzeSizeDistribution_perm {es1 es2 : List EmailMessage} (h : es1.Perm es2) :
    analyzeSizeDistribution es1 = analyzeSizeDistribution es2 := by
  unfold analyzeSizeDistribution
  dsimp only
  have hs := h.map (fun e => e.size)
  rw [hs.isEmpty_eq, foldl_bumpSize_eq, foldl_bumpSize_eq, hs.countP_eq, hs.countP_eq,
      hs.countP_eq, hs.countP_eq, hs.sum_eq, hs.length_eq,
      foldOpt_perm max (fun a b => max_comm a b) (fun a b c => max_assoc a b c) hs,
      foldOpt_perm min (fun a b => min_comm a b) (fun a b c => min_assoc a b c) hs]

theorem analyzeThreads_perm {es1 es2 : List EmailMessage} (h : es1.Perm es2)
    (hne : (threadStats es1).Pairwise (fun p q => p.count ≠ q.count)) :
    analyzeThreads es1 = analyzeThreads es2 := by
  unfold analyzeThreads
  dsimp only
  rw [sortDesc_eq_of_perm (fun t => t.count) (threadStats_perm h) hne]

theorem analyzeDomains_perm {es1 es2 : List EmailMessage} (h : es1.Perm es2)
    (hne : (counterItems (domainKeys es1)).Pairwise (fun p q => p.2 ≠ q.2)) :
    analyzeDomains es1 = analyzeDomains es2 := by
  unfold analyzeDomains
  have hd := domainKeys_perm h
  rw [mostCommon_eq_of_perm 20 hd hne, (counterItems_perm hd).length_eq, h.isEmpty_eq,
      h.length_eq]

theorem analyzeSentiment_perm {es1 es2 : List EmailMessage} (h : es1.Perm es2) :
    analyzeSentiment es1 = analyzeSentiment es2 := by
  unfold analyzeSentiment
  dsimp only
  rw [h.countP_eq, h.countP_eq, h.countP_eq, h.length_eq]

theorem analyzeKeywords_perm {es1 es2 : List EmailMessage} (h : es1.Perm es2)
    (hne : (counterItems (keywordList es1)).Pairwise (fun p q => p.2 ≠ q.2)) :
    analyzeKeywords es1 = analyzeKeywords es2 := by
  unfold analyzeKeywords
  have hk := keywordList_perm h
  rw [mostCommon_eq_of_perm 50 hk hne, (counterItems_perm hk).length_eq,
      mostCommon_eq_of_perm 1 hk hne]

/-! ### Claim C8 -/

/-- No two distinct keys of any counter-based sub-statistic carry equal
counts, and no two thread groups have equal sizes: the tie-freedom hypothesis
of the order-insensitivity property. -/
def noTies (es : List EmailMessage) : Prop :=
  (counterItems (es.filterMap senderKey)).Pairwise (fun p q => p.2 ≠ q.2) ∧
  (counterItems (domainKeys es)).Pairwise (fun p q => p.2 ≠ q.2) ∧
  (counterItems (subjectWords es)).Pairwise (fun p q => p.2 ≠ q.2) ∧
  (counterItems (keywordList es)).Pairwise (fun p q => p.2 ≠ q.2) ∧
  (counterItems (attachmentExts es)).Pairwise (fun p q => p.2 ≠ q.2) ∧
  (threadStats es).Pairwise (fun p q => p.count ≠ q.count)

/-- C8: when no two distinct keys of any counter-based sub-statistic
(senders, domains, subject words, keywords, attachment extensions, thread
sizes) have equal counts, `analyze` applied to any permutation of the input
yields exactly the same bundle. -/
theorem C8_perm_invariant (es1 es2 : List EmailMessage) (h : es1.Perm es2)
    (ht : noTies es1) : analyzeEmails es1 = analyzeEmails es2 := by
  obtain ⟨h1, h2, h3, h4, h5, h6⟩ := ht
  unfold analyzeEmails
  rw [h.isEmpty_eq]
  by_cases he : es2.isEmpty
  · rw [if_pos he, if_pos he]
  · rw [if_neg he, if_neg he, analyzeResponseTimes_perm h]
    cases analyzeResponseTimes es2 with
    | none => rfl
    | some rt =>
      rw [h.length_eq, dateRange_perm h, calculateTotalSize_perm h, analyzeSenders_perm h h1,
          analyzeTimeActivity_perm h, analyzeDailyActivity_perm h, analyzeHourlyActivity_perm h,
          analyzeSubjects_perm h h3, analyzeAttachments_perm h h5,
          analyzeSizeDistribution_perm h, analyzeThreads_perm h h6, analyzeDomains_perm h h2,
          analyzeSentiment_perm h, analyzeKeywords_perm h h4]

/-- A record with truthy-empty text fields, so that every counter of the
witness input is empty. -/
def c8a : EmailMessage := ⟨some "", none, none, some "", [], 1⟩

/-- A second such record of a different size. -/
def c8b : EmailMessage := ⟨some "", none, none, some "", [], 2⟩

/-- Witness for `C8_perm_invariant` on the swap of a two-record input. -/
theorem C8_witness : analyzeEmails [c8a, c8b] = analyzeEmails [c8b, c8a] :=
  C8_perm_invariant [c8a, c8b] [c8b, c8a] (List.Perm.swap c8b c8a [])
    ⟨List.Pairwise.nil, List.Pairwise.nil, List.Pairwise.nil, List.Pairwise.nil,
     List.Pairwise.nil, List.Pairwise.nil⟩

end EmailBox
